import Mathlib

/-!
Formal model of the batch command interpreter of `netlaborious.py`.

The interpreter's data and control flow — `parse_args`, the batch
collection loop, the preparation/validation loop and the execution loop
of `main`, plus the `command` registration decorator — are embedded as
executable Lean definitions.  Python dictionaries of options are
modelled as association lists whose `optSet` removes any earlier binding
of the key; Python's `UnboundLocalError` (raised when a local such as
`words` or `command_func` is read before ever being assigned) is
modelled as an explicit crash flag; the external tokenizer `shlex.split`
is modelled as a per-line oracle result carried with the input line,
since it is a library external to the repository.  An uncaught Python
exception terminates the process with exit status 1, which is how
`Outcome.exitCode` renders the crash outcomes.
-/

set_option autoImplicit false

deriving instance DecidableEq for Except

namespace Netlaborious

/-- An option set: a Python `dict` from flag to value (`None` for the
no-value flags), modelled as an association list.  `optSet` removes any
earlier binding of the key, so keys stay unique when sets are built by
`optSet` alone, matching dict semantics. -/
abbrev OptSet := List (String × Option String)

/-- Dict lookup: `s[k]` (wrapped in `Option` for absence). -/
def optGet (s : OptSet) (k : String) : Option (Option String) :=
  (s.find? (fun p => p.1 == k)).map Prod.snd

/-- Dict assignment: `s[k] = v` (a later assignment overwrites). -/
def optSet (s : OptSet) (k : String) (v : Option String) : OptSet :=
  s.filter (fun p => !(p.1 == k)) ++ [(k, v)]

/-- `_NO_ARG_OPTIONS` from the source. -/
def NO_ARG_OPTIONS : List String := ["--help", "--verbose"]

/-- `word.startswith(c)` for a single character, the only form the
source uses (`word.startswith('-')`). -/
def startswith (w : String) (c : Char) : Bool :=
  match w.data with
  | [] => false
  | a :: _ => a == c

/-- The three ways `parse_args` raises `ArgumentParseError`; each
constructor carries the data interpolated into the source's message. -/
inductive ParseErrKind where
  | missingValue (flag : String)
  | multipleCommands (first second : String)
  | missingCommand
deriving DecidableEq

/-- `ArgumentParseError`, with the `[line N]` message prefix carried as
structured data. -/
structure ArgumentParseError where
  lineno : Option Nat
  kind : ParseErrKind
deriving DecidableEq

/-- The word-scanning loop of `parse_args`: `cmd` is the command word
seen so far, `opts` the options dict built so far. -/
def parseArgsAux (lineno : Option Nat) :
    List String → Option String → OptSet →
    Except ArgumentParseError (String × OptSet)
  | [], none, _ => Except.error ⟨lineno, ParseErrKind.missingCommand⟩
  | [], some c, opts => Except.ok (c, opts)
  | w :: ws, cmd, opts =>
    if startswith w '-' then
      if NO_ARG_OPTIONS.contains w then
        parseArgsAux lineno ws cmd (optSet opts w none)
      else
        match ws with
        | [] => Except.error ⟨lineno, ParseErrKind.missingValue w⟩
        | v :: ws2 => parseArgsAux lineno ws2 cmd (optSet opts w (some v))
    else
      match cmd with
      | none => parseArgsAux lineno ws (some w) opts
      | some c => Except.error ⟨lineno, ParseErrKind.multipleCommands c w⟩

/-- `parse_args(argv, lineno=None)` from the source. -/
def parse_args (argv : List String) (lineno : Option Nat) :
    Except ArgumentParseError (String × OptSet) :=
  parseArgsAux lineno argv none []

/-- A registered command's derived option contract
(`func._required_options`, `func._optional_options`). -/
structure Handler where
  name : String
  required_options : List String
  optional_options : List String
deriving DecidableEq

/-- The `command` decorator: derives `--kebab-case` flags from the
handler's parameter names; the first `args.length - ndefaults`
parameters (those without a default) give the required flags. -/
def command (name : String) (args : List String) (ndefaults : Nat) : Handler :=
  let options := args.map (fun a =>
    "--" ++ String.mk (a.toList.map (fun c => if c = '_' then '-' else c)))
  let n := args.length - ndefaults
  ⟨name, options.take n, options.drop n⟩

/-- `_COMMANDS`: the four handlers registered in the source, with their
Python signatures (parameter lists and number of defaulted parameters). -/
def COMMANDS : List (String × Handler) :=
  [("clone", command "clone"
      ["vsuser", "src_vm", "dest_host", "dest_vm", "snapshot", "vshost",
       "vsport"] 3),
   ("info", command "info" ["vsuser", "vm", "vshost", "vsport"] 2),
   ("snapshot", command "snapshot"
      ["vsuser", "vm", "snapshot", "vshost", "vsport"] 2),
   ("upload", command "upload"
      ["vsuser", "ovf", "vm", "dest_host", "dest_folder", "dest_datastore",
       "resource_pool", "snapshot", "vshost", "vsport"] 3)]

/-- `_COMMANDS[command]` wrapped in `Option` for the `KeyError` case. -/
def lookupCommand (name : String) : Option Handler :=
  (COMMANDS.find? (fun p => p.1 == name)).map Prod.snd

/-- `option.lstrip('-').replace('-', '_')`. -/
def argName (option : String) : String :=
  String.mk ((option.toList.dropWhile (fun c => c == '-')).map
    (fun c => if c = '-' then '_' else c))

/-- One line of batch input together with its `shlex.split` outcome
(the tokenizer is an external library; its result is supplied with the
line, `Except.error` meaning it raised `ValueError`). -/
structure BatchLine where
  text : String
  tok : Except String (List String)

/-- The diagnostics the interpreter writes through its logger, as
structured data. -/
inductive LogEvent where
  | lexError (lineno : Nat) (msg : String)
  | parseError (err : ArgumentParseError)
  | invalidCommand (lineno : Option Nat) (name : String)
  | missingOptions (lineno : Option Nat) (name : String) (missing : List String)
  | abortMsg
deriving DecidableEq

/-- Whether a log entry records a parse or validation error (everything
except the final abort summary message). -/
def LogEvent.isError : LogEvent → Bool
  | .abortMsg => false
  | _ => true

/-- State of the batch collection loop: `words` is the Python local of
the same name (`none` models "never assigned yet"). -/
structure CollectState where
  commands : List (String × OptSet × String)
  errors : Bool
  words : Option (List String)
  log : List LogEvent
deriving DecidableEq

/-- Locals at the top of the collection loop. -/
def initCollect : CollectState := ⟨[], false, none, []⟩

/-- One iteration of the collection loop
(`for n, line in enumerate(sys.stdin, start=1)`).  Returns the new
state and whether the iteration crashed with `UnboundLocalError`
(reading `words` before any assignment).  A tokenization failure leaves
`words` holding the previous line's words. -/
def collectStep (n : Nat) (l : BatchLine) (s : CollectState) :
    CollectState × Bool :=
  let s1 := match l.tok with
    | Except.ok ws => { s with words := some ws }
    | Except.error msg =>
      { s with errors := true, log := s.log ++ [LogEvent.lexError n msg] }
  match s1.words with
  | none => (s1, true)
  | some [] => (s1, false)
  | some (w :: ws) =>
    match parse_args (w :: ws) (some n) with
    | Except.ok co =>
      ({ s1 with commands := s1.commands ++ [(co.1, co.2, l.text)] }, false)
    | Except.error e =>
      ({ s1 with errors := true, log := s1.log ++ [LogEvent.parseError e] },
       false)

/-- The collection loop itself, `n` being the 1-based line number of
the first line of `ls`. -/
def collectLines : Nat → List BatchLine → CollectState → CollectState × Bool
  | _, [], s => (s, false)
  | n, l :: ls, s =>
    let r := collectStep n l s
    if r.2 then (r.1, true) else collectLines (n + 1) ls r.1

/-- A prepared invocation closure (an entry of `funcs`): the handler
together with the positional values, keyword arguments and source line
captured by the lambda. -/
structure Func where
  handler : Handler
  values : List (Option String)
  kwargs : List (String × Option String)
  line : String
deriving DecidableEq

/-- `persistent_options.copy()` followed by `.update(options)`: a pure
merge into a fresh copy, the line's options overriding. -/
def resolveOptions (persistent options : OptSet) : OptSet :=
  options.foldl (fun acc kv => optSet acc kv.1 kv.2) persistent

/-- State of the preparation/validation loop: `command_func` is the
Python local of the same name, which stays stale across iterations
(`none` models "never assigned yet"). -/
structure ValidateState where
  errors : Bool
  funcs : List Func
  persistent_options : OptSet
  command_func : Option Handler
  log : List LogEvent
deriving DecidableEq

/-- Locals at the top of the validation loop; the log accumulated so
far is carried in. -/
def initValidate (log : List LogEvent) : ValidateState :=
  ⟨false, [], [], none, log⟩

/-- One iteration of the validation loop over collected
`(command, options, line)` triples, `n` being the 1-based index within
the collected list (`enumerate(commands, start=1)`).  Returns the new
state and whether the iteration crashed with `UnboundLocalError`: the
`except KeyError` branch logs the unknown command but falls through to
`command_func._required_options` with `command_func` possibly never
assigned. -/
def validateStep (batch_mode : Bool) (n : Nat)
    (c : String × OptSet × String) (s : ValidateState) :
    ValidateState × Bool :=
  let command := c.1
  let options := c.2.1
  let line := c.2.2
  let maybe_line : Option Nat := if batch_mode then some n else none
  let persistent_options_copy := resolveOptions s.persistent_options options
  if command = "ARGS" then
    ({ s with persistent_options := options }, false)
  else
    let s1 := match lookupCommand command with
      | some f => { s with command_func := some f }
      | none =>
        { s with errors := true,
                 log := s.log ++ [LogEvent.invalidCommand maybe_line command] }
    match s1.command_func with
    | none => (s1, true)
    | some command_func =>
      let vm := command_func.required_options.foldl
        (fun acc option => match optGet persistent_options_copy option with
          | some v => (acc.1 ++ [v], acc.2)
          | none => (acc.1, acc.2 ++ [option])) ([], [])
      let s2 := if vm.2.isEmpty then s1
        else { s1 with errors := true,
                       log := s1.log ++
                         [LogEvent.missingOptions maybe_line command vm.2] }
      let kwargs := command_func.optional_options.foldl
        (fun acc option => match optGet persistent_options_copy option with
          | some v => acc ++ [(argName option, v)]
          | none => acc) []
      ({ s2 with funcs := s2.funcs ++ [⟨command_func, vm.1, kwargs, line⟩] },
       false)

/-- The validation loop itself. -/
def validateCommands (batch_mode : Bool) :
    Nat → List (String × OptSet × String) → ValidateState →
    ValidateState × Bool
  | _, [], s => (s, false)
  | n, c :: cs, s =>
    let r := validateStep batch_mode n c s
    if r.2 then (r.1, true) else validateCommands batch_mode (n + 1) cs r.1

/-- Observable effects of the execution loop. -/
inductive Event where
  | echo (line : String)
  | invoke (name : String) (values : List (Option String))
      (kwargs : List (String × Option String))
deriving DecidableEq

/-- Whether an event is a handler invocation. -/
def Event.isInvoke : Event → Bool
  | .invoke _ _ _ => true
  | _ => false

/-- The execution loop.  `fails i = true` means the `i`-th queued
handler raises when invoked; nothing catches it, so the loop stops
there (second component `true`).  The invocation itself still happens
(the handler was entered), so its `invoke` event is emitted. -/
def executeFuncs (fails : Nat → Bool) : Nat → List Func → List Event × Bool
  | _, [] => ([], false)
  | i, f :: fs =>
    let pre := if f.line = "" then [] else [Event.echo f.line]
    let inv := Event.invoke f.handler.name f.values f.kwargs
    if fails i then (pre ++ [inv], true)
    else
      let r := executeFuncs fails (i + 1) fs
      (pre ++ inv :: r.1, r.2)

/-- How one run of `main` ends: a `return`/fall-through with an exit
code, or an uncaught exception. -/
inductive Outcome where
  | exited (code : Nat)
  | nameError
  | handlerError
deriving DecidableEq

/-- Process exit status: an uncaught exception makes Python exit with
status 1. -/
def Outcome.exitCode : Outcome → Nat
  | .exited c => c
  | .nameError => 1
  | .handlerError => 1

/-- Everything observable about one batch run. -/
structure RunResult where
  log : List LogEvent
  events : List Event
  outcome : Outcome
deriving DecidableEq

/-- The batch path of `main` (command `batch`): collect all lines,
abort on collection errors, validate all collected invocations, abort
on validation errors, then execute. -/
def runBatch (lines : List BatchLine) (fails : Nat → Bool) : RunResult :=
  let col := collectLines 1 lines initCollect
  if col.2 then ⟨col.1.log, [], Outcome.nameError⟩
  else if col.1.errors then
    ⟨col.1.log ++ [LogEvent.abortMsg], [], Outcome.exited 1⟩
  else
    let val := validateCommands true 1 col.1.commands (initValidate col.1.log)
    if val.2 then ⟨val.1.log, [], Outcome.nameError⟩
    else if val.1.errors then
      ⟨val.1.log ++ [LogEvent.abortMsg], [], Outcome.exited 1⟩
    else
      let ex := executeFuncs fails 0 val.1.funcs
      ⟨val.1.log, ex.1, if ex.2 then Outcome.handlerError else Outcome.exited 0⟩

/-- Spec-level event list of one prepared invocation (spec 4.5,
Executing): echo the carried source text when present, then invoke the
handler. -/
def funcEvents (f : Func) : List Event :=
  (if f.line = "" then [] else [Event.echo f.line]) ++
  [Event.invoke f.handler.name f.values f.kwargs]

/-- Modelled from the spec (4.5 Executing): the prepared invocations of
an error-free batch, in original input order — persistent state is
threaded through `ARGS` lines (which emit nothing), and every other
line invokes its registered handler with required-flag values
positionally in descriptor order and optional-flag values (under their
parameter names) only when present in the resolved option set. -/
def specFuncs (persistent : OptSet) :
    List (String × OptSet × String) → List Func
  | [] => []
  | c :: rest =>
    if c.1 = "ARGS" then specFuncs c.2.1 rest
    else
      match lookupCommand c.1 with
      | none => []
      | some h =>
        let resolved := resolveOptions persistent c.2.1
        ⟨h, h.required_options.filterMap (fun o => optGet resolved o),
           h.optional_options.filterMap
             (fun o => (optGet resolved o).map (fun v => (argName o, v))),
           c.2.2⟩ :: specFuncs persistent rest

/-! Basic facts about option sets. -/

theorem find?_filter_out (s : OptSet) (k k2 : String) (h : k2 ≠ k) :
    (s.filter (fun p => !(p.1 == k))).find? (fun p => p.1 == k2)
      = s.find? (fun p => p.1 == k2) := by
  have hkk2 : (k == k2) = false := by
    simp only [beq_eq_false_iff_ne, ne_eq]
    exact fun hh => h hh.symm
  have hk2k : (k2 == k) = false := by
    simp only [beq_eq_false_iff_ne, ne_eq]
    exact h
  induction s with
  | nil => rfl
  | cons p s ih =>
    by_cases hk : p.1 = k
    · simp [List.filter_cons, hk, List.find?_cons, hkk2, ih]
    · by_cases hq : p.1 = k2
      · simp [List.filter_cons, hk, List.find?_cons, hq, hk2k, h]
      · simp [List.filter_cons, hk, List.find?_cons, hq, ih]

theorem optGet_optSet_self (s : OptSet) (k : String) (v : Option String) :
    optGet (optSet s k v) k = some v := by
  unfold optGet optSet
  rw [List.find?_append]
  have h1 : (s.filter (fun p => !(p.1 == k))).find? (fun p => p.1 == k)
      = none := by
    rw [List.find?_eq_none]
    intro p hp
    simp only [List.mem_filter, Bool.not_eq_eq_eq_not, Bool.not_true] at hp
    simp [hp.2]
  rw [h1]
  simp [List.find?_cons]

theorem optGet_optSet_ne (s : OptSet) (k k2 : String) (v : Option String)
    (h : k2 ≠ k) : optGet (optSet s k v) k2 = optGet s k2 := by
  unfold optGet optSet
  rw [List.find?_append, find?_filter_out s k k2 h]
  have h2 : List.find? (fun p => p.1 == k2) [(k, v)] = none := by
    simp only [List.find?_cons, List.find?_nil]
    have : (k == k2) = false := by
      simp only [beq_eq_false_iff_ne, ne_eq]
      exact fun hh => h hh.symm
    simp [this]
  rw [h2]
  cases s.find? (fun p => p.1 == k2) <;> rfl

theorem optGet_resolveOptions_not_mem (o : OptSet) :
    ∀ (p : OptSet) (k : String), k ∉ o.map Prod.fst →
      optGet (resolveOptions p o) k = optGet p k := by
  induction o with
  | nil => intro p k _; rfl
  | cons kv o ih =>
    intro p k hk
    simp only [List.map_cons, List.mem_cons] at hk
    push_neg at hk
    have step : resolveOptions p (kv :: o) = resolveOptions (optSet p kv.1 kv.2) o := rfl
    rw [step, ih (optSet p kv.1 kv.2) k hk.2, optGet_optSet_ne _ _ _ _ hk.1]

/-- Claim C7: the resolved option set used for a line is the persistent
set overridden by the line's own options — it agrees with the line
options on every flag they bind, and with the persistent set on every
flag only the persistent set binds; `resolveOptions` performs no
validation (it is a total function into option sets). -/
theorem c7_resolve_override (p o : OptSet)
    (hnd : (o.map Prod.fst).Nodup) (k : String) :
    (∀ v, optGet o k = some v → optGet (resolveOptions p o) k = some v) ∧
    (optGet o k = none → optGet (resolveOptions p o) k = optGet p k) := by
  induction o generalizing p with
  | nil => exact ⟨fun v hv => by simp [optGet] at hv, fun _ => rfl⟩
  | cons kv o ih =>
    simp only [List.map_cons, List.nodup_cons] at hnd
    have step : resolveOptions p (kv :: o) = resolveOptions (optSet p kv.1 kv.2) o := rfl
    by_cases hk : kv.1 = k
    · have hget : optGet (kv :: o) k = some kv.2 := by
        simp [optGet, hk]
      have hfin : optGet (resolveOptions p (kv :: o)) k = some kv.2 := by
        rw [step, optGet_resolveOptions_not_mem o (optSet p kv.1 kv.2) k
          (by simpa [hk] using hnd.1), hk, optGet_optSet_self]
      refine ⟨fun v hv => ?_, fun hv => ?_⟩
      · rw [hget] at hv
        rw [hfin, ← Option.some_inj.mp hv]
      · rw [hget] at hv
        exact absurd hv (by simp)
    · have hget : optGet (kv :: o) k = optGet o k := by
        simp [optGet, hk]
      have ih2 := ih (optSet p kv.1 kv.2) hnd.2
      refine ⟨fun v hv => ?_, fun hv => ?_⟩
      · rw [hget] at hv
        rw [step]
        exact ih2.1 v hv
      · rw [hget] at hv
        rw [step, ih2.2 hv, optGet_optSet_ne _ _ _ _ (fun hkk => hk hkk.symm)]

/-- Witness for C7 at concrete sets: the line option overrides the
persistent binding of `--b`, while `--a` keeps its persistent value. -/
theorem c7_witness :
    optGet (resolveOptions [("--a", some "1"), ("--b", some "2")]
      [("--b", some "3")]) "--b" = some (some "3") ∧
    optGet (resolveOptions [("--a", some "1"), ("--b", some "2")]
      [("--b", some "3")]) "--a" = some (some "1") := by
  refine ⟨(c7_resolve_override _ _ (by decide) "--b").1 (some "3") (by decide), ?_⟩
  have h := (c7_resolve_override [("--a", some "1"), ("--b", some "2")]
    [("--b", some "3")] (by decide) "--a").2 (by decide)
  rw [h]
  decide

/-- Claim C6: the line parser scans words left to right — a word
starting with the option marker is a flag; a no-value flag is recorded
with an absent value; any other flag consumes the next word as its
value, failing with a missing-value error when no next word exists; the
first non-flag, non-value word becomes the command; a second one fails
with a multiple-commands error; zero such words fail with a
missing-command error; and a later occurrence of a flag overwrites an
earlier one. -/
theorem c6_line_parser_cases (lineno : Option Nat) (ws : List String)
    (cmd : Option String) (opts : OptSet) (w v : String) :
    (startswith w '-' = true → NO_ARG_OPTIONS.contains w = true →
      parseArgsAux lineno (w :: ws) cmd opts
        = parseArgsAux lineno ws cmd (optSet opts w none) ∧
      optGet (optSet opts w none) w = some none) ∧
    (startswith w '-' = true → NO_ARG_OPTIONS.contains w = false →
      parseArgsAux lineno [w] cmd opts
        = Except.error ⟨lineno, ParseErrKind.missingValue w⟩) ∧
    (startswith w '-' = true → NO_ARG_OPTIONS.contains w = false →
      parseArgsAux lineno (w :: v :: ws) cmd opts
        = parseArgsAux lineno ws cmd (optSet opts w (some v))) ∧
    (startswith w '-' = false →
      parseArgsAux lineno (w :: ws) none opts
        = parseArgsAux lineno ws (some w) opts) ∧
    (∀ c, startswith w '-' = false →
      parseArgsAux lineno (w :: ws) (some c) opts
        = Except.error ⟨lineno, ParseErrKind.multipleCommands c w⟩) ∧
    (parseArgsAux lineno [] none opts
      = Except.error ⟨lineno, ParseErrKind.missingCommand⟩) ∧
    (∀ c, parseArgsAux lineno [] (some c) opts = Except.ok (c, opts)) ∧
    (∀ v2, optGet (optSet (optSet opts w (some v)) w (some v2)) w
      = some (some v2)) := by
  refine ⟨fun h1 h2 => ⟨?_, optGet_optSet_self _ _ _⟩, fun h1 h2 => ?_,
    fun h1 h2 => ?_, fun h1 => ?_, fun c h1 => ?_, ?_, fun c => ?_,
    fun v2 => optGet_optSet_self _ _ _⟩
  · have h2m : w ∈ NO_ARG_OPTIONS := by simpa using h2
    conv_lhs => rw [parseArgsAux.eq_def]
    simp [h1, h2m]
  · have h2m : w ∉ NO_ARG_OPTIONS := by simpa using h2
    conv_lhs => rw [parseArgsAux.eq_def]
    simp [h1, h2m]
  · have h2m : w ∉ NO_ARG_OPTIONS := by simpa using h2
    conv_lhs => rw [parseArgsAux.eq_def]
    simp [h1, h2m]
  · conv_lhs => rw [parseArgsAux.eq_def]
    simp [h1]
  · conv_lhs => rw [parseArgsAux.eq_def]
    simp [h1]
  · rfl
  · rfl

/-- Witness for C6, exercising each hypothesis-guarded case at concrete
words. -/
theorem c6_witness :
    (parseArgsAux none ["--verbose", "x"] none []
        = parseArgsAux none ["x"] none (optSet [] "--verbose" none) ∧
      optGet (optSet [] "--verbose" none) "--verbose" = some none) ∧
    (parseArgsAux none ["--vm"] none []
      = Except.error ⟨none, ParseErrKind.missingValue "--vm"⟩) ∧
    (parseArgsAux none ["--vm", "x", "info"] none []
      = parseArgsAux none ["info"] none (optSet [] "--vm" (some "x"))) ∧
    (parseArgsAux none ["info"] none []
      = parseArgsAux none [] (some "info") []) ∧
    (parseArgsAux none ["extra"] (some "info") []
      = Except.error ⟨none, ParseErrKind.multipleCommands "info" "extra"⟩) ∧
    (optGet (optSet (optSet [] "--vm" (some "x")) "--vm" (some "y")) "--vm"
      = some (some "y")) := by
  refine ⟨(c6_line_parser_cases none ["x"] none [] "--verbose" "x").1
      (by decide) (by decide),
    (c6_line_parser_cases none [] none [] "--vm" "x").2.1 (by decide) (by decide),
    (c6_line_parser_cases none ["info"] none [] "--vm" "x").2.2.1
      (by decide) (by decide),
    (c6_line_parser_cases none [] none [] "info" "x").2.2.2.1 (by decide),
    (c6_line_parser_cases none [] none [] "extra" "x").2.2.2.2.1 "info"
      (by decide),
    (c6_line_parser_cases none [] none [] "--vm" "x").2.2.2.2.2.2.2 "y"⟩

/-- Claim C10: a flag outside the static no-value set always consumes
the immediately following word as its value, with no condition on that
word — in particular `--vsuser` takes the value `--vm` in
`['--vsuser', '--vm', 'x']` and `x` becomes the command. -/
theorem c10_flag_consumes_next_word (lineno : Option Nat) (ws : List String)
    (cmd : Option String) (opts : OptSet) (w v : String)
    (h1 : startswith w '-' = true) (h2 : NO_ARG_OPTIONS.contains w = false) :
    parseArgsAux lineno (w :: v :: ws) cmd opts
      = parseArgsAux lineno ws cmd (optSet opts w (some v)) ∧
    parse_args ["--vsuser", "--vm", "x"] none
      = Except.ok ("x", [("--vsuser", some "--vm")]) := by
  have h2m : w ∉ NO_ARG_OPTIONS := by simpa using h2
  refine ⟨?_, by decide⟩
  conv_lhs => rw [parseArgsAux.eq_def]
  simp [h1, h2m]

/-- Witness for C10: the flag `--vsuser` consumes `--vm` — itself a
flag-shaped word — as its value. -/
theorem c10_witness :
    parseArgsAux none ["--vsuser", "--vm", "x"] none []
      = parseArgsAux none ["x"] none (optSet [] "--vsuser" (some "--vm")) ∧
    parse_args ["--vsuser", "--vm", "x"] none
      = Except.ok ("x", [("--vsuser", some "--vm")]) :=
  c10_flag_consumes_next_word none ["x"] none [] "--vsuser" "--vm"
    (by decide) (by decide)

/-- Claim C8: persistent state is replaced wholesale by an `ARGS` line
with exactly that line's own options, an `ARGS` line emits no prepared
invocation and does not crash, and processing any non-`ARGS` line
leaves persistent state unchanged. -/
theorem c8_args_persistent_frame (bm : Bool) (n : Nat) (cmd : String)
    (opts : OptSet) (line : String) (s : ValidateState) :
    (cmd ≠ "ARGS" →
      ((validateStep bm n (cmd, opts, line) s).1).persistent_options
        = s.persistent_options) ∧
    ((validateStep bm n ("ARGS", opts, line) s).1).persistent_options = opts ∧
    ((validateStep bm n ("ARGS", opts, line) s).1).funcs = s.funcs ∧
    (validateStep bm n ("ARGS", opts, line) s).2 = false := by
  refine ⟨fun h => ?_, by simp [validateStep], by simp [validateStep],
    by simp [validateStep]⟩
  simp only [validateStep, if_neg h]
  cases hl : lookupCommand cmd with
  | some f => simp only [hl]; split <;> simp
  | none =>
    simp only [hl]
    cases hcf : s.command_func with
    | none => simp [hcf]
    | some cf => simp only [hcf]; split <;> simp

/-- Witness for C8 at a concrete state: an `info` line leaves the
persistent set `[--a ↦ 1]` unchanged, while an `ARGS` line replaces it
with exactly its own options, emitting no invocation. -/
theorem c8_witness :
    (((validateStep true 1
        ("info", [("--vsuser", some "u"), ("--vm", some "x")], "t")
        ⟨false, [], [("--a", some "1")], none, []⟩).1).persistent_options
      = [("--a", some "1")]) ∧
    (((validateStep true 2 ("ARGS", [("--b", some "2")], "t")
        ⟨false, [], [("--a", some "1")], none, []⟩).1).persistent_options
      = [("--b", some "2")]) ∧
    (((validateStep true 2 ("ARGS", [("--b", some "2")], "t")
        ⟨false, [], [("--a", some "1")], none, []⟩).1).funcs = []) ∧
    ((validateStep true 2 ("ARGS", [("--b", some "2")], "t")
        ⟨false, [], [("--a", some "1")], none, []⟩).2 = false) :=
  ⟨(c8_args_persistent_frame true 1 "info"
      [("--vsuser", some "u"), ("--vm", some "x")] "t"
      ⟨false, [], [("--a", some "1")], none, []⟩).1 (by decide),
   (c8_args_persistent_frame true 2 "ARGS" [("--b", some "2")] "t"
      ⟨false, [], [("--a", some "1")], none, []⟩).2.1,
   (c8_args_persistent_frame true 2 "ARGS" [("--b", some "2")] "t"
      ⟨false, [], [("--a", some "1")], none, []⟩).2.2.1,
   (c8_args_persistent_frame true 2 "ARGS" [("--b", some "2")] "t"
      ⟨false, [], [("--a", some "1")], none, []⟩).2.2.2⟩

/-! Error-flag and log invariants of the collection and validation
loops: the `errors` flag is never reset, and the log grows exactly when
the flag is set. -/

theorem collectStep_errors_mono (n : Nat) (l : BatchLine) (s : CollectState)
    (h : s.errors = true) : ((collectStep n l s).1).errors = true := by
  unfold collectStep
  cases htok : l.tok <;> dsimp only <;> split <;> (try split) <;> simp [h]

theorem collectStep_noerror (n : Nat) (l : BatchLine) (s : CollectState)
    (h : ((collectStep n l s).1).errors = false) :
    ((collectStep n l s).1).log = s.log ∧ s.errors = false := by
  revert h
  unfold collectStep
  cases htok : l.tok <;> dsimp only <;> split <;> (try split) <;>
    intro h <;> simp_all

theorem collectLines_errors_mono (ls : List BatchLine) :
    ∀ (n : Nat) (s : CollectState), s.errors = true →
      ((collectLines n ls s).1).errors = true := by
  induction ls with
  | nil => intro n s h; simpa [collectLines] using h
  | cons l ls ih =>
    intro n s h
    unfold collectLines
    dsimp only
    by_cases hr : (collectStep n l s).2 = true
    · simp only [if_pos hr]
      exact collectStep_errors_mono n l s h
    · simp only [if_neg hr]
      exact ih (n + 1) _ (collectStep_errors_mono n l s h)

theorem collectLines_noerror_log (ls : List BatchLine) :
    ∀ (n : Nat) (s : CollectState),
      ((collectLines n ls s).1).errors = false →
      ((collectLines n ls s).1).log = s.log := by
  induction ls with
  | nil => intro n s _; rfl
  | cons l ls ih =>
    intro n s h
    unfold collectLines at h ⊢
    dsimp only at h ⊢
    by_cases hr : (collectStep n l s).2 = true
    · rw [if_pos hr] at h ⊢
      exact (collectStep_noerror n l s h).1
    · rw [if_neg hr] at h ⊢
      have hstep : ((collectStep n l s).1).errors = false := by
        cases hx : ((collectStep n l s).1).errors with
        | false => rfl
        | true =>
          have := collectLines_errors_mono ls (n + 1) _ hx
          rw [this] at h
          exact absurd h (by decide)
      rw [ih (n + 1) _ h, (collectStep_noerror n l s hstep).1]

theorem validateStep_errors_mono (bm : Bool) (n : Nat)
    (c : String × OptSet × String) (s : ValidateState)
    (h : s.errors = true) : ((validateStep bm n c s).1).errors = true := by
  unfold validateStep
  dsimp only
  split
  · simpa using h
  · cases hl : lookupCommand c.1 <;> cases hcf : s.command_func <;>
      dsimp only <;> (try split) <;> simp [h]

theorem validateStep_noerror (bm : Bool) (n : Nat)
    (c : String × OptSet × String) (s : ValidateState)
    (h : ((validateStep bm n c s).1).errors = false) :
    ((validateStep bm n c s).1).log = s.log ∧ s.errors = false := by
  revert h
  unfold validateStep
  dsimp only
  split
  · intro h
    exact ⟨rfl, by simpa using h⟩
  · cases hl : lookupCommand c.1 <;> dsimp only
    · cases hcf : s.command_func <;> dsimp only
      · intro h
        simp at h
      · split <;> intro h <;> simp_all
    · split <;> intro h <;> simp_all

theorem validateCommands_errors_mono (bm : Bool)
    (cs : List (String × OptSet × String)) :
    ∀ (n : Nat) (s : ValidateState), s.errors = true →
      ((validateCommands bm n cs s).1).errors = true := by
  induction cs with
  | nil => intro n s h; simpa [validateCommands] using h
  | cons c cs ih =>
    intro n s h
    unfold validateCommands
    dsimp only
    by_cases hr : (validateStep bm n c s).2 = true
    · simp only [if_pos hr]
      exact validateStep_errors_mono bm n c s h
    · simp only [if_neg hr]
      exact ih (n + 1) _ (validateStep_errors_mono bm n c s h)

theorem validateCommands_noerror_log (bm : Bool)
    (cs : List (String × OptSet × String)) :
    ∀ (n : Nat) (s : ValidateState),
      ((validateCommands bm n cs s).1).errors = false →
      ((validateCommands bm n cs s).1).log = s.log := by
  induction cs with
  | nil => intro n s _; rfl
  | cons c cs ih =>
    intro n s h
    unfold validateCommands at h ⊢
    dsimp only at h ⊢
    by_cases hr : (validateStep bm n c s).2 = true
    · rw [if_pos hr] at h ⊢
      exact (validateStep_noerror bm n c s h).1
    · rw [if_neg hr] at h ⊢
      have hstep : ((validateStep bm n c s).1).errors = false := by
        cases hx : ((validateStep bm n c s).1).errors with
        | false => rfl
        | true =>
          have := validateCommands_errors_mono bm cs (n + 1) _ hx
          rw [this] at h
          exact absurd h (by decide)
      rw [ih (n + 1) _ h, (validateStep_noerror bm n c s hstep).1]

/-- Claim C1: in any batch run in which a parse or validation error was
recorded, no handler is invoked and the run ends with a non-zero
status; handlers run only when the accumulated error list is empty
after validation. -/
theorem c1_errors_mean_no_handlers (lines : List BatchLine)
    (fails : Nat → Bool)
    (h : (runBatch lines fails).log.any LogEvent.isError = true) :
    (runBatch lines fails).events = [] ∧
    (runBatch lines fails).outcome.exitCode ≠ 0 := by
  revert h
  unfold runBatch
  dsimp only
  by_cases hc2 : (collectLines 1 lines initCollect).2 = true
  · rw [if_pos hc2]
    intro _
    exact ⟨rfl, by simp [Outcome.exitCode]⟩
  · rw [if_neg hc2]
    by_cases hce : ((collectLines 1 lines initCollect).1).errors = true
    · rw [if_pos hce]
      intro _
      exact ⟨rfl, by simp [Outcome.exitCode]⟩
    · rw [if_neg hce]
      by_cases hv2 : (validateCommands true 1
          ((collectLines 1 lines initCollect).1).commands
          (initValidate ((collectLines 1 lines initCollect).1).log)).2 = true
      · rw [if_pos hv2]
        intro _
        exact ⟨rfl, by simp [Outcome.exitCode]⟩
      · rw [if_neg hv2]
        by_cases hve : ((validateCommands true 1
            ((collectLines 1 lines initCollect).1).commands
            (initValidate ((collectLines 1 lines initCollect).1).log)).1).errors
            = true
        · rw [if_pos hve]
          intro _
          exact ⟨rfl, by simp [Outcome.exitCode]⟩
        · rw [if_neg hve]
          intro h
          exfalso
          have hvlog := validateCommands_noerror_log true
            ((collectLines 1 lines initCollect).1).commands 1
            (initValidate ((collectLines 1 lines initCollect).1).log)
            (by simpa using hve)
          have hclog := collectLines_noerror_log lines 1 initCollect
            (by simpa using hce)
          dsimp only at h
          rw [hvlog] at h
          dsimp only [initValidate] at h
          rw [hclog] at h
          simp [initCollect] at h

/-- Witness for C1: a one-line batch whose single line is a flag with a
missing value records a parse error, invokes nothing, and exits 1. -/
theorem c1_witness :
    (runBatch [⟨"--vsuser\n", Except.ok ["--vsuser"]⟩]
      (fun _ => false)).log.any LogEvent.isError = true ∧
    ((runBatch [⟨"--vsuser\n", Except.ok ["--vsuser"]⟩]
        (fun _ => false)).events = [] ∧
      (runBatch [⟨"--vsuser\n", Except.ok ["--vsuser"]⟩]
        (fun _ => false)).outcome.exitCode ≠ 0) :=
  ⟨by decide, c1_errors_mean_no_handlers _ _ (by decide)⟩

/-- Claim C2 fails on the code: an unknown command on the first
collected invocation is logged, but the loop then reads the
never-assigned local `command_func` and the run dies with
`UnboundLocalError` instead of returning a failure outcome; likewise a
tokenization failure on the first line crashes on the never-assigned
local `words`. -/
theorem c2_unknown_command_crashes :
    runBatch [⟨"badcmd --vsuser u\n", Except.ok ["badcmd", "--vsuser", "u"]⟩]
        (fun _ => false)
      = ⟨[LogEvent.invalidCommand (some 1) "badcmd"], [],
         Outcome.nameError⟩ ∧
    runBatch [⟨"info oops\n", Except.error "No closing quotation"⟩]
        (fun _ => false)
      = ⟨[LogEvent.lexError 1 "No closing quotation"], [],
         Outcome.nameError⟩ := by
  decide

/-- Claim C3 fails on the code: a lex failure on line 2 is recorded
with its line number and collection continues, but the stale local
`words` still holds line 1's words, so a duplicate invocation derived
from line 1 is emitted for line 2 (carrying line 2's source text). -/
theorem c3_stale_words_reparse :
    collectLines 1
      [⟨"info --vsuser u --vm x\n",
        Except.ok ["info", "--vsuser", "u", "--vm", "x"]⟩,
       ⟨"info oops\n", Except.error "No closing quotation"⟩,
       ⟨"info --vsuser a --vm b\n",
        Except.ok ["info", "--vsuser", "a", "--vm", "b"]⟩]
      initCollect
      = (⟨[("info", [("--vsuser", some "u"), ("--vm", some "x")],
            "info --vsuser u --vm x\n"),
           ("info", [("--vsuser", some "u"), ("--vm", some "x")],
            "info oops\n"),
           ("info", [("--vsuser", some "a"), ("--vm", some "b")],
            "info --vsuser a --vm b\n")],
          true,
          some ["info", "--vsuser", "a", "--vm", "b"],
          [LogEvent.lexError 2 "No closing quotation"]⟩, false) := by
  decide

/-- Claim C4 fails on the code: with a blank first line, the invalid
second line's missing-option error is reported as `[line 1]` — the
index over collected invocations — not as source line 2; zero handlers
run. -/
theorem c4_reports_collection_index :
    runBatch [⟨"\n", Except.ok []⟩,
        ⟨"info --vsuser u\n", Except.ok ["info", "--vsuser", "u"]⟩]
        (fun _ => false)
      = ⟨[LogEvent.missingOptions (some 1) "info" ["--vm"],
          LogEvent.abortMsg], [], Outcome.exited 1⟩ := by
  decide

/-- Counterexample to claim C5: in an error-free two-line batch whose
first handler raises, the exception is not contained — the run crashes
and only one of the two queued invocations is ever attempted. -/
theorem c5_no_containment_counterexample :
    runBatch
        [⟨"info --vsuser u --vm x\n",
          Except.ok ["info", "--vsuser", "u", "--vm", "x"]⟩,
         ⟨"info --vsuser u --vm y\n",
          Except.ok ["info", "--vsuser", "u", "--vm", "y"]⟩]
        (fun i => decide (i = 0))
      = ⟨[], [Event.echo "info --vsuser u --vm x\n",
              Event.invoke "info" [some "u", some "x"] []],
         Outcome.handlerError⟩ ∧
    (runBatch
        [⟨"info --vsuser u --vm x\n",
          Except.ok ["info", "--vsuser", "u", "--vm", "x"]⟩,
         ⟨"info --vsuser u --vm y\n",
          Except.ok ["info", "--vsuser", "u", "--vm", "y"]⟩]
        (fun i => decide (i = 0))).events.countP Event.isInvoke = 1 := by
  decide

/-- Claim C5 amended: the execution loop has no per-invocation error
containment — when the first failing handler is at (0-based) offset `i`
of the queue, the uncaught exception ends the run and exactly the first
`i + 1` queued invocations are attempted. -/
theorem c5_uncontained_execution (fs : List Func) (fails : Nat → Bool) :
    ∀ (k i : Nat), i < fs.length → fails (k + i) = true →
      (∀ j, j < i → fails (k + j) = false) →
      (executeFuncs fails k fs).2 = true ∧
      (executeFuncs fails k fs).1.countP Event.isInvoke = i + 1 := by
  induction fs with
  | nil =>
    intro k i hi _ _
    simp at hi
  | cons f fs ih =>
    intro k i hi hf hmin
    unfold executeFuncs
    dsimp only
    cases i with
    | zero =>
      have hfk : fails k = true := by simpa using hf
      rw [if_pos hfk]
      refine ⟨rfl, ?_⟩
      by_cases hline : f.line = "" <;>
        simp [hline, List.countP_append, List.countP_cons, Event.isInvoke]
    | succ i2 =>
      have hfk : fails k = false := by simpa using hmin 0 (Nat.succ_pos i2)
      rw [if_neg (by simp [hfk])]
      dsimp only
      have ihh := ih (k + 1) i2 (Nat.lt_of_succ_lt_succ hi)
        (by
          have ha : k + 1 + i2 = k + (i2 + 1) := by omega
          rw [ha]
          exact hf)
        (by
          intro j hj
          have ha : k + 1 + j = k + (j + 1) := by omega
          rw [ha]
          exact hmin (j + 1) (Nat.succ_lt_succ hj))
      refine ⟨by simpa using ihh.1, ?_⟩
      by_cases hline : f.line = "" <;>
        simp [hline, List.countP_append, List.countP_cons, Event.isInvoke,
          ihh.2]

/-- Witness for the amended C5 at a concrete queue: with two queued
invocations and the first handler failing, the run crashes after
exactly one attempted invocation. -/
theorem c5_uncontained_execution_witness :
    (executeFuncs (fun i => decide (i = 0)) 0
        [⟨command "info" ["vsuser", "vm", "vshost", "vsport"] 2,
          [some "u", some "x"], [], "t1\n"⟩,
         ⟨command "info" ["vsuser", "vm", "vshost", "vsport"] 2,
          [some "u", some "y"], [], "t2\n"⟩]).2 = true ∧
    (executeFuncs (fun i => decide (i = 0)) 0
        [⟨command "info" ["vsuser", "vm", "vshost", "vsport"] 2,
          [some "u", some "x"], [], "t1\n"⟩,
         ⟨command "info" ["vsuser", "vm", "vshost", "vsport"] 2,
          [some "u", some "y"], [], "t2\n"⟩]).1.countP Event.isInvoke
      = 0 + 1 :=
  c5_uncontained_execution
    [⟨command "info" ["vsuser", "vm", "vshost", "vsport"] 2,
      [some "u", some "x"], [], "t1\n"⟩,
     ⟨command "info" ["vsuser", "vm", "vshost", "vsport"] 2,
      [some "u", some "y"], [], "t2\n"⟩]
    (fun i => decide (i = 0)) 0 0 (by decide) (by decide)
    (fun j hj => absurd hj (Nat.not_lt_zero j))

/-! Characterization of the prepared invocations of an error-free
batch, leading to claim C9. -/

theorem foldl_required_split (copy : OptSet) (l : List String) :
    ∀ (a : List (Option String)) (b : List String),
      l.foldl (fun acc option => match optGet copy option with
        | some v => (acc.1 ++ [v], acc.2)
        | none => (acc.1, acc.2 ++ [option])) (a, b)
      = (a ++ l.filterMap (fun o => optGet copy o),
         b ++ l.filter (fun o => (optGet copy o).isNone)) := by
  induction l with
  | nil => intro a b; simp
  | cons o l ih =>
    intro a b
    cases hg : optGet copy o <;>
      simp [List.foldl_cons, hg, ih, List.filterMap_cons, List.filter_cons]

theorem foldl_kwargs_split (copy : OptSet) (l : List String) :
    ∀ (a : List (String × Option String)),
      l.foldl (fun acc option => match optGet copy option with
        | some v => acc ++ [(argName option, v)]
        | none => acc) a
      = a ++ l.filterMap
          (fun o => (optGet copy o).map (fun v => (argName o, v))) := by
  induction l with
  | nil => intro a; simp
  | cons o l ih =>
    intro a
    cases hg : optGet copy o <;>
      simp [List.foldl_cons, hg, ih, List.filterMap_cons]

theorem executeFuncs_noFail (fs : List Func) :
    ∀ k, executeFuncs (fun _ => false) k fs
      = ((fs.map funcEvents).flatten, false) := by
  induction fs with
  | nil => intro k; rfl
  | cons f fs ih =>
    intro k
    unfold executeFuncs
    dsimp only
    rw [ih (k + 1)]
    by_cases hline : f.line = "" <;> simp [hline, funcEvents]

theorem validateStep_noerror_lookup (bm : Bool) (n : Nat)
    (c : String × OptSet × String) (s : ValidateState)
    (hA : ¬c.1 = "ARGS")
    (he : ((validateStep bm n c s).1).errors = false) :
    ∃ f, lookupCommand c.1 = some f := by
  revert he
  unfold validateStep
  dsimp only
  rw [if_neg hA]
  cases hl : lookupCommand c.1 <;> dsimp only
  · cases hcf : s.command_func <;> dsimp only
    · intro he
      simp at he
    · intro he
      exfalso
      revert he
      split <;> simp
  · intro _
    exact ⟨_, rfl⟩

theorem validateStep_ok (bm : Bool) (n : Nat) (c : String × OptSet × String)
    (s : ValidateState)
    (hcr : (validateStep bm n c s).2 = false)
    (he : ((validateStep bm n c s).1).errors = false) :
    ((validateStep bm n c s).1).funcs
      = s.funcs ++ specFuncs s.persistent_options [c] ∧
    ((validateStep bm n c s).1).persistent_options
      = if c.1 = "ARGS" then c.2.1 else s.persistent_options := by
  by_cases hA : c.1 = "ARGS"
  · constructor
    · simp [validateStep, hA, specFuncs]
    · simp [validateStep, hA]
  · obtain ⟨f, hl⟩ := validateStep_noerror_lookup bm n c s hA he
    revert hcr he
    unfold validateStep
    dsimp only
    rw [if_neg hA, hl]
    dsimp only
    intro _ he
    split at he
    · rename_i hcond
      constructor
      · rw [if_pos hcond]
        dsimp only
        rw [foldl_required_split, foldl_kwargs_split]
        simp [specFuncs, hA, hl]
      · rw [if_pos hcond]
        dsimp only
        rw [if_neg hA]
    · simp at he

theorem validateCommands_noerror_funcs (bm : Bool)
    (cs : List (String × OptSet × String)) :
    ∀ (n : Nat) (s : ValidateState),
      (validateCommands bm n cs s).2 = false →
      ((validateCommands bm n cs s).1).errors = false →
      ((validateCommands bm n cs s).1).funcs
        = s.funcs ++ specFuncs s.persistent_options cs := by
  induction cs with
  | nil =>
    intro n s _ _
    simp [validateCommands, specFuncs]
  | cons c cs ih =>
    intro n s hcr he
    unfold validateCommands at hcr he ⊢
    dsimp only at hcr he ⊢
    by_cases hr : (validateStep bm n c s).2 = true
    · rw [if_pos hr] at hcr
      exact absurd hcr (by simp)
    · rw [if_neg hr] at hcr he ⊢
      have hre : ((validateStep bm n c s).1).errors = false := by
        cases hx : ((validateStep bm n c s).1).errors with
        | false => rfl
        | true =>
          have hmono := validateCommands_errors_mono bm cs (n + 1) _ hx
          rw [hmono] at he
          exact absurd he (by decide)
      have hstep := validateStep_ok bm n c s (by simpa using hr) hre
      rw [ih (n + 1) _ hcr he, hstep.1, hstep.2]
      by_cases hA : c.1 = "ARGS"
      · rw [if_pos hA]
        simp [specFuncs, hA]
      · obtain ⟨f, hl⟩ := validateStep_noerror_lookup bm n c s hA hre
        rw [if_neg hA]
        simp [specFuncs, hA, hl]

/-- Claim C9: for an error-free batch, the execution pass (with no
handler failing) produces exactly, for each collected non-`ARGS`
invocation in original input order, the echo of its carried source
text followed by the invocation of its handler with required-flag
values positionally in descriptor order and optional-flag values only
for flags present in the resolved option set. -/
theorem c9_error_free_execution (l : List LogEvent)
    (cs : List (String × OptSet × String))
    (hcr : (validateCommands true 1 cs (initValidate l)).2 = false)
    (he : ((validateCommands true 1 cs (initValidate l)).1).errors = false) :
    executeFuncs (fun _ => false) 0
        ((validateCommands true 1 cs (initValidate l)).1).funcs
      = (((specFuncs [] cs).map funcEvents).flatten, false) := by
  rw [validateCommands_noerror_funcs true cs 1 (initValidate l) hcr he]
  rw [executeFuncs_noFail]
  rfl

/-- Witness for C9 on the spec's own end-to-end example shape: an
`ARGS` line establishing `--vsuser alice` followed by an `info` line. -/
theorem c9_witness :
    executeFuncs (fun _ => false) 0
        ((validateCommands true 1
          [("ARGS", [("--vsuser", some "alice")], "ARGS --vsuser alice\n"),
           ("info", [("--vm", some "web01")], "info --vm web01\n")]
          (initValidate [])).1).funcs
      = (((specFuncs []
          [("ARGS", [("--vsuser", some "alice")], "ARGS --vsuser alice\n"),
           ("info", [("--vm", some "web01")], "info --vm web01\n")]).map
            funcEvents).flatten, false) :=
  c9_error_free_execution []
    [("ARGS", [("--vsuser", some "alice")], "ARGS --vsuser alice\n"),
     ("info", [("--vm", some "web01")], "info --vm web01\n")]
    (by decide) (by decide)

end Netlaborious
